import Mathlib

/-!
Verification of the Sight2Sense electronics-assistant conversation core.

The development shallowly embeds the two components of the program:

* the Conversation Store (`App.tsx`): React state becomes an explicit
  `AppState`; the asynchronous `handleSendMessage` is split into its
  synchronous first phase (guard, provisional user turn, request
  construction) and its two continuations (`handleSendMessageResolve`,
  `handleSendMessageFail`);
* the Insight Client (`services/geminiService.ts`):
  `generateElectronicsInsight` becomes a pure function from its inputs plus
  the outcome of the single network call to the returned result and the
  outbound request it issued (`none` when no network call was attempted).

JavaScript string truthiness, `||` defaulting, `String.prototype.trim` and
`String.prototype.split(",")` are modelled explicitly so that every
definition evaluates inside the kernel.  Machine clocks (`Date.now()`)
become explicit `Nat` arguments.
-/

namespace S2S

/-! ### JavaScript string semantics -/

/-- Truthiness of a JS `string | undefined | null` value: `undefined`, `null`
and `""` are falsy. -/
def isTruthy : Option String → Bool
  | none => false
  | some s => !(s == "")

/-- JS `a || b` where `a : string | undefined` and the result is used as a
string. -/
def jsOrS (a : Option String) (b : String) : String :=
  match a with
  | some x => if x == "" then b else x
  | none => b

/-- JS `a || b` where both operands are optional strings. -/
def jsOrOpt (a b : Option String) : Option String :=
  match a with
  | some x => if x == "" then b else some x
  | none => b

/-- JS `x || undefined`: collapse a falsy string to `undefined`. -/
def truthyOr (a : Option String) : Option String :=
  match a with
  | some x => if x == "" then none else some x
  | none => none

/-- Models JS `String.prototype.trim`: drop whitespace from both ends. -/
def jsTrim (s : String) : String :=
  (((s.data.dropWhile Char.isWhitespace).reverse.dropWhile
      Char.isWhitespace).reverse).asString

/-- Accumulator-passing core of `String.prototype.split(",")`. -/
def splitCommaAux : List Char → List Char → List String
  | [], acc => [acc.reverse.asString]
  | c :: cs, acc =>
    if c = ',' then acc.reverse.asString :: splitCommaAux cs []
    else splitCommaAux cs (c :: acc)

/-- Models JS `s.split(",")` (note `"".split(",") = [""]`). -/
def jsSplitComma (s : String) : List String :=
  splitCommaAux s.data []

/-! ### Data model (`types.ts`) -/

inductive Role where
  | user
  | model
deriving DecidableEq

/-- A conversation turn (`Message` in `types.ts`); `timestamp` is the
millisecond clock reading of `new Date()`. -/
structure Message where
  id : String
  role : Role
  text : String
  image : Option String
  timestamp : Nat
deriving DecidableEq

/-- `ChatState` in `types.ts`. -/
structure ChatState where
  messages : List Message
  isLoading : Bool
  error : Option String
deriving DecidableEq

inductive SkillLevel where
  | BEGINNER
  | INTERMEDIATE
  | ADVANCED
deriving DecidableEq

/-- The string value of a `SkillLevel` enum member. -/
def SkillLevel.label : SkillLevel → String
  | .BEGINNER => "Beginner"
  | .INTERMEDIATE => "Intermediate"
  | .ADVANCED => "Advanced"

/-- The relevant component state of `App.tsx`: the chat state plus the
`inputText` and `selectedImage` `useState` cells. -/
structure AppState where
  chatState : ChatState
  inputText : String
  selectedImage : Option String
deriving DecidableEq

/-- The argument tuple with which `App.tsx` invokes
`generateElectronicsInsight`. -/
structure InsightRequest where
  prompt : String
  history : List Message
  skillLevel : SkillLevel
  currentImage : Option String
deriving DecidableEq

/-! ### Conversation Store (`App.tsx`) -/

/-- `const promptToUse = customPrompt || inputText;` -/
def promptToUse (s : AppState) (customPrompt : Option String) : String :=
  jsOrS customPrompt s.inputText

/-- `const imageToUse = customImage || selectedImage;` -/
def imageToUse (s : AppState) (customImage : Option String) : Option String :=
  jsOrOpt customImage s.selectedImage

/-- `if ((!promptToUse.trim() && !imageToUse) || chatState.isLoading) return;` -/
def sendGuard (s : AppState) (customPrompt customImage : Option String) : Bool :=
  (jsTrim (promptToUse s customPrompt) == ""
      && !(isTruthy (imageToUse s customImage)))
    || s.chatState.isLoading

/-- The `userMessage` object built by `handleSendMessage`; `t` is the
`Date.now()` reading. -/
def mkUserMessage (s : AppState) (t : Nat)
    (customPrompt customImage : Option String) : Message :=
  { id := Nat.repr t
    role := .user
    text :=
      if promptToUse s customPrompt == "" then "Analyze this image."
      else promptToUse s customPrompt
    image :=
      if isTruthy customImage then truthyOr (imageToUse s customImage)
      else none
    timestamp := t }

/-- The text shown in place of the user turn when `customPrompt` is
supplied. -/
def uploadDisplayText : String :=
  "📷 Image uploaded. Automated analysis in progress..."

/-- The `displayMessage` object: `customPrompt ? { ...userMessage, text: ... }
: userMessage`. -/
def mkDisplayMessage (s : AppState) (t : Nat)
    (customPrompt customImage : Option String) : Message :=
  if isTruthy customPrompt then
    { mkUserMessage s t customPrompt customImage with text := uploadDisplayText }
  else mkUserMessage s t customPrompt customImage

/-- Synchronous first phase of `handleSendMessage`: the guard, the state
update appending the provisional user turn, and the argument tuple passed to
`generateElectronicsInsight` (`none` when the guard rejected the call).
Note the source passes the stale closure value `chatState.messages` — the
message list from *before* the append — as the history. -/
def handleSendMessage (s : AppState) (t : Nat) (sk : SkillLevel)
    (customPrompt customImage : Option String) :
    AppState × Option InsightRequest :=
  if sendGuard s customPrompt customImage then (s, none)
  else
    let userMessage := mkUserMessage s t customPrompt customImage
    let displayMessage := mkDisplayMessage s t customPrompt customImage
    ({ chatState :=
        { messages := s.chatState.messages ++ [displayMessage]
          isLoading := true
          error := none }
       inputText := ""
       selectedImage := s.selectedImage },
     some { prompt := userMessage.text
            history := s.chatState.messages
            skillLevel := sk
            currentImage := truthyOr (imageToUse s customImage) })

/-- Success continuation of `handleSendMessage`: append the assistant turn,
clear the pending flag; `t` is the `Date.now()` reading at resolution time
(the id is `(Date.now() + 1).toString()`). -/
def handleSendMessageResolve (s : AppState) (t : Nat) (aiResponse : String) :
    AppState :=
  { s with chatState :=
      { s.chatState with
        messages := s.chatState.messages ++
          [{ id := Nat.repr (t + 1)
             role := .model
             text := aiResponse
             image := none
             timestamp := t }]
        isLoading := false } }

/-- Failure continuation of `handleSendMessage`:
`error: err.message || "Engine failure."`; `errMessage` is the caught
error's `.message` (`none` when unavailable). -/
def handleSendMessageFail (s : AppState) (errMessage : Option String) :
    AppState :=
  { s with chatState :=
      { s.chatState with
        isLoading := false
        error := some (jsOrS errMessage "Engine failure.") } }

/-- `resetChat`: fresh empty chat state, staged image cleared (the input
text cell is not touched by the source). -/
def resetChat (s : AppState) : AppState :=
  { s with
    chatState := { messages := [], isLoading := false, error := none }
    selectedImage := none }

/-- The fixed prompt sent by `handleImageUpload`. -/
def uploadPrompt : String :=
  "Initiate full Safety Check and Component Identification. Be concise for mobile."

/-- `handleImageUpload` once the file is read as `base64`: it stages the
image (`setSelectedImage`) and calls `handleSendMessage(uploadPrompt,
base64)`; the send still observes the pre-update closure state `s`. -/
def handleImageUpload (s : AppState) (t : Nat) (sk : SkillLevel)
    (base64 : String) : AppState × Option InsightRequest :=
  let r := handleSendMessage s t sk (some uploadPrompt) (some base64)
  ({ r.1 with selectedImage := some base64 }, r.2)

/-- The initial chat state of `App.tsx`. -/
def initChatState : ChatState :=
  { messages := [], isLoading := false, error := none }

/-- The initial component state of `App.tsx`. -/
def initAppState : AppState :=
  { chatState := initChatState, inputText := "", selectedImage := none }

/-! ### Insight Client (`services/geminiService.ts`) -/

def MODEL_NAME : String := "gemini-3-flash-preview"

/-- One part of a request turn: `inlineData` or `text`. -/
inductive ReqPart where
  | inlineData (mimeType : String) (data : String)
  | text (content : String)
deriving DecidableEq

/-- One element of the `contents` array of the outbound request. -/
structure RequestTurn where
  role : String
  parts : List ReqPart
deriving DecidableEq

/-- `img.split(",")[1] || img` — the payload of a data URL, or the raw
string when there is no comma (or an empty segment). -/
def splitDataUrl (s : String) : String :=
  match (jsSplitComma s).get? 1 with
  | some x => if x == "" then s else x
  | none => s

/-- `msg.role === "user" ? "user" : "model"`. -/
def msgRole (m : Message) : String :=
  match m.role with
  | .user => "user"
  | .model => "model"

/-- The parts of a history turn: the image (when truthy) re-attached as
inline data, then the text. -/
def msgParts (m : Message) : List ReqPart :=
  (if isTruthy m.image then
      [ReqPart.inlineData "image/jpeg" (splitDataUrl (m.image.getD ""))]
    else []) ++ [ReqPart.text m.text]

/-- `const contents = history.map(msg => ...)`. -/
def historyContents (history : List Message) : List RequestTurn :=
  history.map fun m => { role := msgRole m, parts := msgParts m }

/-- The `currentParts` array: the new turn's image (when truthy) first,
then its text. -/
def currentParts (prompt : String) (currentImage : Option String) :
    List ReqPart :=
  (if isTruthy currentImage then
      [ReqPart.inlineData "image/jpeg" (splitDataUrl (currentImage.getD ""))]
    else []) ++ [ReqPart.text prompt]

/-- The system-instruction template, parameterized by the skill level. -/
def systemInstructionFor (sk : SkillLevel) : String :=
  "\nYou are Sight2Sense, an expert electronics and embedded-systems mentor. \nYour goal is to help users troubleshoot, analyze, and design electronic systems, circuits, PCBs, and General Purpose Control Systems (GPCS).\n\nCORE PERSONALITY & MENTORSHIP:\n- Use beginner-friendly yet technically accurate language.\n- Mentor the user as if they are in a lab.\n- Explain why each step matters, not just what to do.\n- Encourage safe practices and logical reasoning.\n- Adapt depth based on user skill level: "
    ++ sk.label ++
    ".\n\nIF THE USER PROVIDES AN IMAGE:\n- Analyze visible components, layout, and connections.\n- Identify potential issues (short circuits, bad solder joints, polarity risks).\n- Suggest safe diagnostic steps based on visual evidence.\n- Mandatory Sections:\n  ### Safety Check\n  ### Component Identification\n\nIF THE USER PROVIDES TEXT ONLY:\n- Treat it as a general troubleshooting or design question.\n- Guide the user through logical diagnostic steps.\n- Explain expected readings and probing techniques.\n\nSPECIFIC SCENARIOS TO HANDLE WELL:\n- No power issues\n- GPCS architecture explanation\n- Input protection identification\n\nMOBILE OPTIMIZATION:\n- Short paragraphs\n- Bullet points\n- Clear summaries\n\nSAFETY FIRST:\n- Warn about high voltage and battery risks.\n- Encourage datasheet verification.\n"

/-- The single outbound request issued by the Insight Client (the two
numeric generation parameters — temperature `0.4`, top-p `0.9` — are
floating-point literals and carry no claim; they are omitted from the
embedding). -/
structure OutboundRequest where
  model : String
  contents : List RequestTurn
  systemInstruction : String
deriving DecidableEq

/-- The outcome of the one network call: a response whose `.text` may be
absent, or a thrown error whose `.message` may be absent. -/
inductive NetworkOutcome where
  | success (text : Option String)
  | failure (message : Option String)
deriving DecidableEq

/-- `generateElectronicsInsight`, as a function of its inputs plus the
network outcome.  The second component is the outbound request issued —
`none` exactly when no network call was attempted (missing API key). -/
def generateElectronicsInsight (apiKey : Option String) (prompt : String)
    (history : List Message) (sk : SkillLevel) (currentImage : Option String)
    (network : NetworkOutcome) : Except String String × Option OutboundRequest :=
  if !(isTruthy apiKey) then
    (.error "VITE_GEMINI_API_KEY is missing", none)
  else
    let req : OutboundRequest :=
      { model := MODEL_NAME
        contents := historyContents history ++
          [{ role := "user", parts := currentParts prompt currentImage }]
        systemInstruction := systemInstructionFor sk }
    match network with
    | .success t => (.ok (jsOrS t "No response generated."), some req)
    | .failure m => (.error (jsOrS m "Engine failure."), some req)

/-! ### Session traces

Reachable conversation states are those produced by a sequence of
user-visible events.  Submissions and resolutions carry the millisecond
clock reading (`Date.now()`) at which they run; a real clock is
non-decreasing, and resolutions can only happen while the request they
complete is outstanding (`inflight` counts outstanding promises — a reset
does not cancel an in-flight request). -/

inductive Event where
  | submit (t : Nat) (customPrompt customImage : Option String)
  | upload (t : Nat) (base64 : String)
  | resolveOk (t : Nat) (aiResponse : String)
  | resolveFail (errMessage : Option String)
  | setInput (text : String)
  | reset
deriving DecidableEq

/-- App state plus the number of outstanding inference promises. -/
structure SysState where
  app : AppState
  inflight : Nat
deriving DecidableEq

def stepEvent (sk : SkillLevel) (s : SysState) : Event → SysState
  | .submit t cp ci =>
    let r := handleSendMessage s.app t sk cp ci
    { app := r.1, inflight := s.inflight + (if r.2.isSome then 1 else 0) }
  | .upload t b =>
    let r := handleImageUpload s.app t sk b
    { app := r.1, inflight := s.inflight + (if r.2.isSome then 1 else 0) }
  | .resolveOk t txt =>
    if s.inflight > 0 then
      { app := handleSendMessageResolve s.app t txt, inflight := s.inflight - 1 }
    else s
  | .resolveFail em =>
    if s.inflight > 0 then
      { app := handleSendMessageFail s.app em, inflight := s.inflight - 1 }
    else s
  | .setInput txt => { s with app := { s.app with inputText := txt } }
  | .reset => { s with app := resetChat s.app }

def execEvents (sk : SkillLevel) (s : SysState) (es : List Event) : SysState :=
  es.foldl (stepEvent sk) s

/-- The clock reading carried by an event, when it has one. -/
def eventTime : Event → Option Nat
  | .submit t _ _ => some t
  | .upload t _ => some t
  | .resolveOk t _ => some t
  | _ => none

/-- Each timed event happens at least `gap` milliseconds after the previous
timed event (`last` is the previous reading, `none` before the first).
With `gap = 1` this says the clock readings are strictly increasing. -/
def timesSeparated (gap : Nat) : Option Nat → List Event → Bool
  | _, [] => true
  | last, e :: es =>
    match eventTime e with
    | some t =>
      (match last with
        | none => true
        | some T => decide (T + gap ≤ t)) && timesSeparated gap (some t) es
    | none => timesSeparated gap last es

def initSysState : SysState :=
  { app := initAppState, inflight := 0 }

/-! ### Injectivity of the decimal representation

Turn identifiers are `Date.now().toString()` values, embedded as
`Nat.repr`.  Distinctness of identifier strings reduces to injectivity of
`Nat.repr`, proved here through a decimal decoding round trip. -/

/-- Numeric value of a decimal digit character. -/
def digitVal (c : Char) : Nat := c.toNat - 48

/-- Decimal value of a most-significant-first digit string. -/
def strVal (l : List Char) : Nat :=
  l.foldl (fun a c => a * 10 + digitVal c) 0

theorem digitVal_digitChar (d : Nat) (h : d < 10) :
    digitVal (Nat.digitChar d) = d := by
  interval_cases d <;> rfl

theorem strVal_append_singleton (l : List Char) (c : Char) :
    strVal (l ++ [c]) = strVal l * 10 + digitVal c := by
  simp [strVal, List.foldl_append]

theorem toDigitsCore_acc (fuel n : Nat) (ds : List Char) :
    Nat.toDigitsCore 10 fuel n ds = Nat.toDigitsCore 10 fuel n [] ++ ds := by
  induction fuel generalizing n ds with
  | zero => rfl
  | succ fuel ih =>
    simp only [Nat.toDigitsCore]
    by_cases h : n / 10 = 0
    · simp [h]
    · simp only [h, if_false]
      rw [ih (n / 10) (Nat.digitChar (n % 10) :: ds),
        ih (n / 10) [Nat.digitChar (n % 10)], List.append_assoc]
      rfl

theorem toDigitsCore_fuel (n : Nat) :
    ∀ f₁ f₂, n < f₁ → n < f₂ →
      Nat.toDigitsCore 10 f₁ n [] = Nat.toDigitsCore 10 f₂ n [] := by
  induction n using Nat.strong_induction_on with
  | _ n ih =>
    intro f₁ f₂ h₁ h₂
    obtain ⟨k₁, rfl⟩ : ∃ k, f₁ = k + 1 := ⟨f₁ - 1, by omega⟩
    obtain ⟨k₂, rfl⟩ : ∃ k, f₂ = k + 1 := ⟨f₂ - 1, by omega⟩
    simp only [Nat.toDigitsCore]
    by_cases h : n / 10 = 0
    · simp [h]
    · simp only [h, if_false]
      have hlt : n / 10 < n := Nat.div_lt_self (by omega) (by omega)
      rw [toDigitsCore_acc k₁, toDigitsCore_acc k₂,
        ih (n / 10) hlt k₁ k₂ (by omega) (by omega)]

theorem strVal_toDigits (n : Nat) : strVal (Nat.toDigits 10 n) = n := by
  induction n using Nat.strong_induction_on with
  | _ n ih =>
    show strVal (Nat.toDigitsCore 10 (n + 1) n []) = n
    simp only [Nat.toDigitsCore]
    by_cases h : n / 10 = 0
    · simp only [h, if_true]
      have hn : n < 10 := by omega
      have : strVal [Nat.digitChar (n % 10)] = n % 10 := by
        simp [strVal, digitVal_digitChar (n % 10) (by omega)]
      simpa [this] using by omega
    · simp only [h, if_false]
      have hlt : n / 10 < n := Nat.div_lt_self (by omega) (by omega)
      rw [toDigitsCore_acc n, toDigitsCore_fuel (n / 10) n (n / 10 + 1)
        (by omega) (by omega)]
      rw [strVal_append_singleton]
      have := ih (n / 10) hlt
      rw [show Nat.toDigits 10 (n / 10)
          = Nat.toDigitsCore 10 (n / 10 + 1) (n / 10) [] from rfl] at this
      rw [this, digitVal_digitChar (n % 10) (by omega)]
      omega

theorem natRepr_injective : Function.Injective Nat.repr := by
  intro a b h
  have hdig : Nat.toDigits 10 a = Nat.toDigits 10 b := congrArg String.data h
  calc a = strVal (Nat.toDigits 10 a) := (strVal_toDigits a).symm
    _ = strVal (Nat.toDigits 10 b) := by rw [hdig]
    _ = b := strVal_toDigits b

/-! ### The identifier invariant -/

theorem mkDisplayMessage_id (s : AppState) (t : Nat) (cp ci : Option String) :
    (mkDisplayMessage s t cp ci).id = Nat.repr t := by
  unfold mkDisplayMessage mkUserMessage
  split <;> rfl

theorem messages_after_send (a : AppState) (t : Nat) (sk : SkillLevel)
    (cp ci : Option String) :
    (handleSendMessage a t sk cp ci).1.chatState.messages
        = a.chatState.messages ∨
      (handleSendMessage a t sk cp ci).1.chatState.messages
        = a.chatState.messages ++ [mkDisplayMessage a t cp ci] := by
  unfold handleSendMessage
  split
  · exact Or.inl rfl
  · exact Or.inr rfl

/-- Identifier invariant: the stored turn identifiers are the decimal
representations of a strictly increasing list of numbers, each at most one
above the last clock reading seen so far. -/
def IdInv (s : SysState) (last : Option Nat) : Prop :=
  ∃ ts : List Nat,
    s.app.chatState.messages.map Message.id = ts.map Nat.repr ∧
    ts.Pairwise (· < ·) ∧
    ∀ x ∈ ts, ∃ T, last = some T ∧ x ≤ T + 1

def lastAfter (last : Option Nat) (e : Event) : Option Nat :=
  match eventTime e with
  | some t => some t
  | none => last

theorem idInv_bump (s' : SysState) (ts : List Nat) (last : Option Nat)
    (t : Nat)
    (hmap : s'.app.chatState.messages.map Message.id = ts.map Nat.repr)
    (hpw : ts.Pairwise (· < ·))
    (hbd : ∀ x ∈ ts, ∃ T, last = some T ∧ x ≤ T + 1)
    (hg : ∀ T, last = some T → T + 2 ≤ t) :
    IdInv s' (some t) := by
  refine ⟨ts, hmap, hpw, ?_⟩
  intro x hx
  obtain ⟨T, hT, hxT⟩ := hbd x hx
  exact ⟨t, rfl, by have := hg T hT; omega⟩

theorem idInv_snoc (s' : SysState) (msgs : List Message) (m : Message)
    (ts : List Nat) (last : Option Nat) (t u : Nat)
    (hmsgs : s'.app.chatState.messages = msgs ++ [m])
    (hid : m.id = Nat.repr u)
    (hmap : msgs.map Message.id = ts.map Nat.repr)
    (hpw : ts.Pairwise (· < ·))
    (hbd : ∀ x ∈ ts, ∃ T, last = some T ∧ x ≤ T + 1)
    (hg : ∀ T, last = some T → T + 2 ≤ t)
    (hu₁ : t ≤ u) (hu₂ : u ≤ t + 1) :
    IdInv s' (some t) := by
  refine ⟨ts ++ [u], ?_, ?_, ?_⟩
  · simp [hmsgs, hmap, hid]
  · rw [List.pairwise_append]
    refine ⟨hpw, by simp, ?_⟩
    intro x hx y hy
    obtain ⟨T, hT, hxT⟩ := hbd x hx
    have := hg T hT
    simp only [List.mem_singleton] at hy
    omega
  · intro x hx
    rcases List.mem_append.1 hx with hx | hx
    · obtain ⟨T, hT, hxT⟩ := hbd x hx
      have := hg T hT
      exact ⟨t, rfl, by omega⟩
    · simp only [List.mem_singleton] at hx
      exact ⟨t, rfl, by omega⟩

theorem idInv_step (sk : SkillLevel) (s : SysState) (last : Option Nat)
    (e : Event) (hinv : IdInv s last)
    (hgap : ∀ t, eventTime e = some t → ∀ T, last = some T → T + 2 ≤ t) :
    IdInv (stepEvent sk s e) (lastAfter last e) := by
  obtain ⟨ts, hmap, hpw, hbd⟩ := hinv
  cases e with
  | submit t cp ci =>
    have hg : ∀ T, last = some T → T + 2 ≤ t := fun T hT => hgap t rfl T hT
    have happ : (stepEvent sk s (Event.submit t cp ci)).app
        = (handleSendMessage s.app t sk cp ci).1 := rfl
    rcases messages_after_send s.app t sk cp ci with hm | hm
    · exact idInv_bump _ ts last t (by rw [happ, hm]; exact hmap) hpw hbd hg
    · exact idInv_snoc _ s.app.chatState.messages _ ts last t t
        (by rw [happ, hm]) (mkDisplayMessage_id s.app t cp ci)
        hmap hpw hbd hg (by omega) (by omega)
  | upload t b =>
    have hg : ∀ T, last = some T → T + 2 ≤ t := fun T hT => hgap t rfl T hT
    have happ : (stepEvent sk s (Event.upload t b)).app.chatState.messages
        = (handleSendMessage s.app t sk (some uploadPrompt)
            (some b)).1.chatState.messages := rfl
    rcases messages_after_send s.app t sk (some uploadPrompt) (some b)
      with hm | hm
    · exact idInv_bump _ ts last t (by rw [happ, hm]; exact hmap) hpw hbd hg
    · exact idInv_snoc _ s.app.chatState.messages _ ts last t t
        (by rw [happ, hm])
        (mkDisplayMessage_id s.app t (some uploadPrompt) (some b))
        hmap hpw hbd hg (by omega) (by omega)
  | resolveOk t txt =>
    have hg : ∀ T, last = some T → T + 2 ≤ t := fun T hT => hgap t rfl T hT
    by_cases hif : s.inflight > 0
    · exact idInv_snoc _ s.app.chatState.messages
        { id := Nat.repr (t + 1), role := .model, text := txt, image := none,
          timestamp := t }
        ts last t (t + 1)
        (by simp [stepEvent, hif, handleSendMessageResolve]) rfl
        hmap hpw hbd hg (by omega) (by omega)
    · exact idInv_bump _ ts last t
        (by simp [stepEvent, hif]; exact hmap) hpw hbd hg
  | resolveFail em =>
    refine ⟨ts, ?_, hpw, hbd⟩
    by_cases hif : s.inflight > 0
    · simpa [stepEvent, hif, handleSendMessageFail] using hmap
    · simpa [stepEvent, hif] using hmap
  | setInput txt =>
    exact ⟨ts, hmap, hpw, hbd⟩
  | reset =>
    exact ⟨[], by simp [stepEvent, resetChat], by simp, by simp⟩

theorem timesSeparated_cons_some (gap : Nat) (last : Option Nat) (e : Event)
    (es : List Event) (t : Nat) (h : eventTime e = some t) :
    timesSeparated gap last (e :: es)
      = ((match last with
          | none => true
          | some T => decide (T + gap ≤ t))
            && timesSeparated gap (some t) es) := by
  simp [timesSeparated, h]

theorem timesSeparated_cons_none (gap : Nat) (last : Option Nat) (e : Event)
    (es : List Event) (h : eventTime e = none) :
    timesSeparated gap last (e :: es) = timesSeparated gap last es := by
  simp [timesSeparated, h]

theorem idInv_exec (sk : SkillLevel) (es : List Event) (s : SysState)
    (last : Option Nat) (hinv : IdInv s last)
    (hsep : timesSeparated 2 last es = true) :
    ∃ last', IdInv (execEvents sk s es) last' := by
  induction es generalizing s last with
  | nil => exact ⟨last, hinv⟩
  | cons e es ih =>
    have hexec : execEvents sk s (e :: es)
        = execEvents sk (stepEvent sk s e) es := rfl
    rcases heq : eventTime e with _ | t
    · rw [timesSeparated_cons_none 2 last e es heq] at hsep
      have hstep := idInv_step sk s last e hinv
        (by intro t ht; rw [heq] at ht; cases ht)
      rw [hexec]
      have hlast : lastAfter last e = last := by simp [lastAfter, heq]
      exact ih (stepEvent sk s e) last (hlast ▸ hstep) hsep
    · rw [timesSeparated_cons_some 2 last e es t heq, Bool.and_eq_true]
        at hsep
      have hstep := idInv_step sk s last e hinv (by
        intro t' ht' T hT
        rw [heq] at ht'
        cases ht'
        subst hT
        exact of_decide_eq_true hsep.1)
      rw [hexec]
      have hlast : lastAfter last e = some t := by simp [lastAfter, heq]
      exact ih (stepEvent sk s e) (some t) (hlast ▸ hstep) hsep.2

/-! ### Helper lemmas shared by the claim theorems -/

/-- The state produced by an accepted submit: provisional turn appended,
pending set, error cleared, input text reset. -/
def acceptedState (s : AppState) (t : Nat) (cp ci : Option String) :
    AppState :=
  { chatState :=
      { messages := s.chatState.messages ++ [mkDisplayMessage s t cp ci]
        isLoading := true
        error := none }
    inputText := ""
    selectedImage := s.selectedImage }

/-- The request tuple produced by an accepted submit. -/
def acceptedRequest (s : AppState) (t : Nat) (sk : SkillLevel)
    (cp ci : Option String) : InsightRequest :=
  { prompt := (mkUserMessage s t cp ci).text
    history := s.chatState.messages
    skillLevel := sk
    currentImage := truthyOr (imageToUse s ci) }

/-- An accepted submit produces exactly the post-append state and the
request tuple re-derived from the arguments. -/
theorem send_accepted (s : AppState) (t : Nat) (sk : SkillLevel)
    (cp ci : Option String) (s' : AppState) (req : InsightRequest)
    (h : handleSendMessage s t sk cp ci = (s', some req)) :
    s' = acceptedState s t cp ci ∧ req = acceptedRequest s t sk cp ci := by
  unfold handleSendMessage at h
  split at h
  · exact absurd (congrArg Prod.snd h) (by simp)
  · refine ⟨?_, ?_⟩
    · have h1 : acceptedState s t cp ci = s' := congrArg Prod.fst h
      exact h1.symm
    · have h2 : (some (acceptedRequest s t sk cp ci)
          : Option InsightRequest) = some req := congrArg Prod.snd h
      exact (Option.some.inj h2).symm

/-- A falsy JS `||` result forces a falsy left operand. -/
theorem isTruthy_of_jsOrS_empty (a : Option String) (b : String)
    (h : jsOrS a b = "") : isTruthy a = false := by
  cases a with
  | none => rfl
  | some x =>
    simp only [jsOrS] at h
    by_cases hx : (x == "") = true
    · simp [isTruthy, hx]
    · rw [if_neg hx] at h
      subst h
      simp at hx

/-- Concrete state with typed input text and no staged image. -/
def typedTextState : AppState :=
  { chatState := initChatState, inputText := "hi", selectedImage := none }

/-- Concrete state with a staged image and empty input text. -/
def stagedImageState : AppState :=
  { chatState := initChatState, inputText := "", selectedImage := some "IMG" }

/-! ### The claims -/

/-- C1: for every accepted submit, the history argument handed to the
Insight Client is exactly the turn sequence from strictly before the
submit — the just-appended provisional user turn is excluded — while the
new utterance travels separately through the prompt and image arguments. -/
theorem history_excludes_provisional_turn (s : AppState) (t : Nat)
    (sk : SkillLevel) (cp ci : Option String) (s' : AppState)
    (req : InsightRequest)
    (h : handleSendMessage s t sk cp ci = (s', some req)) :
    req.history = s.chatState.messages ∧
    s'.chatState.messages
      = s.chatState.messages ++ [mkDisplayMessage s t cp ci] ∧
    req.prompt = (mkUserMessage s t cp ci).text ∧
    req.currentImage = truthyOr (imageToUse s ci) := by
  obtain ⟨hs, hr⟩ := send_accepted s t sk cp ci s' req h
  subst hs
  subst hr
  exact ⟨rfl, rfl, rfl, rfl⟩

/-- C1 witness: a concrete accepted submit from a one-word input on an
empty conversation passes the empty prior history. -/
theorem history_excludes_provisional_turn_witness :
    ({ prompt := "hi", history := [], skillLevel := SkillLevel.INTERMEDIATE,
       currentImage := none } : InsightRequest).history
      = typedTextState.chatState.messages := by
  have h : handleSendMessage typedTextState 5 SkillLevel.INTERMEDIATE none none
      = ((handleSendMessage typedTextState 5
            SkillLevel.INTERMEDIATE none none).1,
         some { prompt := "hi", history := [],
                skillLevel := SkillLevel.INTERMEDIATE,
                currentImage := none }) := by decide
  exact (history_excludes_provisional_turn typedTextState 5
    SkillLevel.INTERMEDIATE none none _ _ h).1

/-- C2: when the inference call of an accepted submit fails, the message
list stays exactly the post-append list (the provisional user turn remains
and no model turn is added), pending becomes false, and the error field
carries the failure's message when available, else the literal
`"Engine failure."`. -/
theorem failed_submit_state (s : AppState) (t : Nat) (sk : SkillLevel)
    (cp ci : Option String) (s' : AppState) (req : InsightRequest)
    (em : Option String)
    (h : handleSendMessage s t sk cp ci = (s', some req)) :
    (handleSendMessageFail s' em).chatState.messages
        = s.chatState.messages ++ [mkDisplayMessage s t cp ci] ∧
    (handleSendMessageFail s' em).chatState.isLoading = false ∧
    (handleSendMessageFail s' em).chatState.error
        = some (jsOrS em "Engine failure.") := by
  obtain ⟨hs, -⟩ := send_accepted s t sk cp ci s' req h
  subst hs
  exact ⟨rfl, rfl, rfl⟩

/-- C2 witness: a concrete failed submit keeps the single provisional user
turn, clears pending, and surfaces the thrown message. -/
theorem failed_submit_state_witness :
    (handleSendMessageFail
        (handleSendMessage typedTextState 5
          SkillLevel.INTERMEDIATE none none).1
        (some "rate limited")).chatState.messages
      = typedTextState.chatState.messages
          ++ [mkDisplayMessage typedTextState 5 none none] ∧
    (handleSendMessageFail
        (handleSendMessage typedTextState 5
          SkillLevel.INTERMEDIATE none none).1
        (some "rate limited")).chatState.isLoading = false ∧
    (handleSendMessageFail
        (handleSendMessage typedTextState 5
          SkillLevel.INTERMEDIATE none none).1
        (some "rate limited")).chatState.error = some "rate limited" := by
  have h := failed_submit_state typedTextState 5 SkillLevel.INTERMEDIATE none
    none (handleSendMessage typedTextState 5 SkillLevel.INTERMEDIATE none
      none).1
    { prompt := "hi", history := [],
      skillLevel := SkillLevel.INTERMEDIATE, currentImage := none }
    (some "rate limited") (by decide)
  refine ⟨h.1, h.2.1, ?_⟩
  rw [h.2.2]
  decide

/-- C3: a submit whose effective text trims to empty and whose effective
image is falsy, or a submit made while a request is pending, leaves the
entire component state unchanged and triggers no inference call. -/
theorem empty_or_pending_submit_noop (s : AppState) (t : Nat)
    (sk : SkillLevel) (cp ci : Option String)
    (h : (jsTrim (promptToUse s cp) = ""
            ∧ isTruthy (imageToUse s ci) = false)
          ∨ s.chatState.isLoading = true) :
    handleSendMessage s t sk cp ci = (s, none) := by
  have hg : sendGuard s cp ci = true := by
    unfold sendGuard
    rcases h with ⟨h1, h2⟩ | h1
    · simp [h1, h2]
    · simp [h1]
  simp [handleSendMessage, hg]

/-- C3 witness: an empty submit on the initial state is a silent no-op. -/
theorem empty_or_pending_submit_noop_witness :
    handleSendMessage initAppState 3 SkillLevel.BEGINNER none none
      = (initAppState, none) :=
  empty_or_pending_submit_noop initAppState 3 SkillLevel.BEGINNER none none
    (Or.inl ⟨by decide, by decide⟩)

/-- C4: when the API-key credential is falsy, the Insight Client fails
immediately with the configuration message and issues no outbound
request. -/
theorem missing_key_fails_without_call (apiKey : Option String)
    (prompt : String) (history : List Message) (sk : SkillLevel)
    (img : Option String) (net : NetworkOutcome)
    (h : isTruthy apiKey = false) :
    generateElectronicsInsight apiKey prompt history sk img net
      = (.error "VITE_GEMINI_API_KEY is missing", none) := by
  simp [generateElectronicsInsight, h]

/-- C4 witness: with the credential absent, a concrete invocation fails
fast with the configuration error and no request. -/
theorem missing_key_fails_without_call_witness :
    generateElectronicsInsight none "probe the rail" [] SkillLevel.BEGINNER
        none (.success none)
      = (.error "VITE_GEMINI_API_KEY is missing", none) :=
  missing_key_fails_without_call none "probe the rail" [] SkillLevel.BEGINNER
    none (.success none) (by decide)

/-- C5: a submit whose effective text is empty but whose effective image is
truthy is accepted, and the turn stored in the conversation carries the
generic placeholder body text. -/
theorem image_only_submit_placeholder (s : AppState) (t : Nat)
    (sk : SkillLevel) (cp ci : Option String)
    (hp : promptToUse s cp = "")
    (hi : isTruthy (imageToUse s ci) = true)
    (hl : s.chatState.isLoading = false) :
    ∃ req, (handleSendMessage s t sk cp ci).2 = some req ∧
      (handleSendMessage s t sk cp ci).1.chatState.messages
        = s.chatState.messages ++ [mkDisplayMessage s t cp ci] ∧
      (mkDisplayMessage s t cp ci).text = "Analyze this image." := by
  have hcp : isTruthy cp = false := isTruthy_of_jsOrS_empty cp s.inputText hp
  have h0 : jsTrim "" = "" := by decide
  have hg : sendGuard s cp ci = false := by
    unfold sendGuard
    rw [hp, h0]
    simp [hi, hl]
  refine ⟨{ prompt := (mkUserMessage s t cp ci).text
            history := s.chatState.messages
            skillLevel := sk
            currentImage := truthyOr (imageToUse s ci) }, ?_, ?_, ?_⟩
  · simp [handleSendMessage, hg]
  · simp [handleSendMessage, hg]
  · simp [mkDisplayMessage, hcp, mkUserMessage, hp]

/-- C5 witness: submitting with a staged image and no text stores a turn
whose body text is the placeholder. -/
theorem image_only_submit_placeholder_witness :
    ∃ req, (handleSendMessage stagedImageState 9
        SkillLevel.ADVANCED none none).2 = some req ∧
      (handleSendMessage stagedImageState 9
          SkillLevel.ADVANCED none none).1.chatState.messages
        = stagedImageState.chatState.messages
            ++ [mkDisplayMessage stagedImageState 9 none none] ∧
      (mkDisplayMessage stagedImageState 9 none none).text
        = "Analyze this image." :=
  image_only_submit_placeholder stagedImageState 9 SkillLevel.ADVANCED none
    none (by decide) (by decide) (by decide)

/-- C6 (amended): along any session trace whose timed events are at least
two milliseconds apart, the stored turn identifiers are the decimal
representations of a strictly increasing sequence of numbers — so they are
assigned in increasing order and are pairwise distinct. -/
theorem turn_ids_distinct_when_separated (sk : SkillLevel) (es : List Event)
    (hsep : timesSeparated 2 none es = true) :
    ∃ ts : List Nat,
      (execEvents sk initSysState es).app.chatState.messages.map Message.id
          = ts.map Nat.repr ∧
      ts.Pairwise (· < ·) ∧
      ((execEvents sk initSysState es).app.chatState.messages.map
          Message.id).Nodup := by
  have h0 : IdInv initSysState none := ⟨[], rfl, by simp, by simp⟩
  obtain ⟨last', ts, hmap, hpw, hbd⟩ :=
    idInv_exec sk es initSysState none h0 hsep
  refine ⟨ts, hmap, hpw, ?_⟩
  rw [hmap]
  exact List.Nodup.map natRepr_injective
    (List.Pairwise.imp (fun h => Nat.ne_of_lt h) hpw)

/-- C6 counterexample: with a strictly increasing clock (gaps of one
millisecond allowed), a submit one millisecond after a resolution reuses
the model turn's identifier — the claim fails as stated. -/
theorem turn_ids_collision_cex :
    timesSeparated 1 none
        [Event.submit 100 (some "hi") none, Event.resolveOk 102 "ok",
          Event.submit 103 (some "yo") none] = true ∧
    ((execEvents SkillLevel.INTERMEDIATE initSysState
        [Event.submit 100 (some "hi") none, Event.resolveOk 102 "ok",
          Event.submit 103 (some "yo") none]).app.chatState.messages.map
        Message.id) = ["100", "103", "103"] ∧
    ¬ ((execEvents SkillLevel.INTERMEDIATE initSysState
        [Event.submit 100 (some "hi") none, Event.resolveOk 102 "ok",
          Event.submit 103 (some "yo") none]).app.chatState.messages.map
        Message.id).Nodup :=
  ⟨by decide, by decide, by decide⟩

/-- C6 witness: a concrete well-separated trace yields strictly increasing,
pairwise-distinct identifiers. -/
theorem turn_ids_distinct_when_separated_witness :
    ∃ ts : List Nat,
      (execEvents SkillLevel.INTERMEDIATE initSysState
          [Event.submit 10 (some "a") none, Event.resolveOk 20 "ok",
            Event.submit 30 (some "b") none]).app.chatState.messages.map
          Message.id = ts.map Nat.repr ∧
      ts.Pairwise (· < ·) ∧
      ((execEvents SkillLevel.INTERMEDIATE initSysState
          [Event.submit 10 (some "a") none, Event.resolveOk 20 "ok",
            Event.submit 30 (some "b") none]).app.chatState.messages.map
          Message.id).Nodup :=
  turn_ids_distinct_when_separated SkillLevel.INTERMEDIATE
    [Event.submit 10 (some "a") none, Event.resolveOk 20 "ok",
      Event.submit 30 (some "b") none] (by decide)

/-- C7: reset always yields the empty conversation — no turns, pending
false, no error — and clears the staged image, from any prior state. -/
theorem reset_yields_empty (s : AppState) :
    (resetChat s).chatState.messages = [] ∧
    (resetChat s).chatState.isLoading = false ∧
    (resetChat s).chatState.error = none ∧
    (resetChat s).selectedImage = none :=
  ⟨rfl, rfl, rfl, rfl⟩

/-- C8: whenever the Insight Client reaches its network call, the final
element of the outbound contents is the new user turn, whose parts are the
image part followed by the text part when an image is carried, and the text
part alone otherwise. -/
theorem outbound_new_turn_parts (apiKey : Option String) (prompt : String)
    (history : List Message) (sk : SkillLevel) (img : Option String)
    (net : NetworkOutcome) (hk : isTruthy apiKey = true) :
    ∃ req, (generateElectronicsInsight apiKey prompt history sk img
        net).2 = some req ∧
      ∃ turn, req.contents = historyContents history ++ [turn] ∧
        turn.role = "user" ∧
        turn.parts = (if isTruthy img then
            [ReqPart.inlineData "image/jpeg" (splitDataUrl (img.getD "")),
              ReqPart.text prompt]
          else [ReqPart.text prompt]) := by
  refine ⟨{ model := MODEL_NAME
            contents := historyContents history ++
              [{ role := "user", parts := currentParts prompt img }]
            systemInstruction := systemInstructionFor sk },
    ?_, { role := "user", parts := currentParts prompt img }, rfl, rfl, ?_⟩
  · cases net <;> simp [generateElectronicsInsight, hk]
  · by_cases h : isTruthy img = true <;> simp [currentParts, h]

/-- C8 witness: a concrete invocation with an image puts the image part
before the text part in the new turn. -/
theorem outbound_new_turn_parts_witness :
    ∃ req, (generateElectronicsInsight (some "k") "what is this" []
        SkillLevel.BEGINNER (some "data:image/jpeg;base64,QUJD")
        (.success (some "ok"))).2 = some req ∧
      ∃ turn, req.contents = historyContents [] ++ [turn] ∧
        turn.role = "user" ∧
        turn.parts = (if isTruthy (some "data:image/jpeg;base64,QUJD") then
            [ReqPart.inlineData "image/jpeg"
                (splitDataUrl ((some "data:image/jpeg;base64,QUJD").getD "")),
              ReqPart.text "what is this"]
          else [ReqPart.text "what is this"]) :=
  outbound_new_turn_parts (some "k") "what is this" [] SkillLevel.BEGINNER
    (some "data:image/jpeg;base64,QUJD") (.success (some "ok")) (by decide)

/-- C9: an image upload stores a user turn whose displayed body text is the
upload banner, while the prompt actually sent to the Insight Client is the
fixed safety-check instruction — two different strings. -/
theorem upload_display_text_differs (s : AppState) (t : Nat)
    (sk : SkillLevel) (b : String)
    (hl : s.chatState.isLoading = false) :
    ∃ req, (handleImageUpload s t sk b).2 = some req ∧
      (handleImageUpload s t sk b).1.chatState.messages
        = s.chatState.messages
            ++ [mkDisplayMessage s t (some uploadPrompt) (some b)] ∧
      (mkDisplayMessage s t (some uploadPrompt) (some b)).text
        = uploadDisplayText ∧
      req.prompt = uploadPrompt ∧
      uploadDisplayText ≠ uploadPrompt := by
  have hpu : promptToUse s (some uploadPrompt) = uploadPrompt := by
    simp only [promptToUse, jsOrS]
    rw [if_neg (by decide)]
  have h1 : (jsTrim (promptToUse s (some uploadPrompt)) == "") = false := by
    rw [hpu]
    decide
  have hg : sendGuard s (some uploadPrompt) (some b) = false := by
    unfold sendGuard
    rw [h1, hl]
    simp
  refine ⟨acceptedRequest s t sk (some uploadPrompt) (some b),
    ?_, ?_, ?_, ?_, by decide⟩
  · simp [handleImageUpload, handleSendMessage, hg, acceptedRequest]
  · simp [handleImageUpload, handleSendMessage, hg]
  · rw [show mkDisplayMessage s t (some uploadPrompt) (some b)
        = { mkUserMessage s t (some uploadPrompt) (some b) with
            text := uploadDisplayText } from by
      simp [mkDisplayMessage, show isTruthy (some uploadPrompt) = true
        from by decide]]
  · show (mkUserMessage s t (some uploadPrompt) (some b)).text = uploadPrompt
    simp [mkUserMessage, hpu, show (uploadPrompt == "") = false from by decide]

/-- C9 witness: a concrete upload on the initial state shows the banner in
the stored turn while sending the safety-check prompt. -/
theorem upload_display_text_differs_witness :
    ∃ req, (handleImageUpload initAppState 7 SkillLevel.BEGINNER
        "data:image/jpeg;base64,QUJD").2 = some req ∧
      (handleImageUpload initAppState 7 SkillLevel.BEGINNER
          "data:image/jpeg;base64,QUJD").1.chatState.messages
        = initAppState.chatState.messages
            ++ [mkDisplayMessage initAppState 7 (some uploadPrompt)
                  (some "data:image/jpeg;base64,QUJD")] ∧
      (mkDisplayMessage initAppState 7 (some uploadPrompt)
          (some "data:image/jpeg;base64,QUJD")).text = uploadDisplayText ∧
      req.prompt = uploadPrompt ∧
      uploadDisplayText ≠ uploadPrompt :=
  upload_display_text_differs initAppState 7 SkillLevel.BEGINNER
    "data:image/jpeg;base64,QUJD" rfl

/-- C10: neither phase of a submit clears the staged image — only reset
does — so a submit issued without an explicit image attaches the currently
staged image to the outbound request. -/
theorem staged_image_persists (s : AppState) (t tr : Nat) (sk : SkillLevel)
    (cp em : Option String) (txt img : String)
    (hst : s.selectedImage = some img) (hne : img ≠ "") :
    (handleSendMessage s t sk cp none).1.selectedImage = some img ∧
    (handleSendMessageResolve s tr txt).selectedImage = some img ∧
    (handleSendMessageFail s em).selectedImage = some img ∧
    (resetChat s).selectedImage = none ∧
    ∀ s' req, handleSendMessage s t sk cp none = (s', some req) →
      req.currentImage = some img := by
  have hkeep : (handleSendMessage s t sk cp none).1.selectedImage
      = s.selectedImage := by
    unfold handleSendMessage
    split
    · rfl
    · rfl
  refine ⟨by rw [hkeep, hst], by rw [show
      (handleSendMessageResolve s tr txt).selectedImage = s.selectedImage
      from rfl, hst], by rw [show
      (handleSendMessageFail s em).selectedImage = s.selectedImage
      from rfl, hst], rfl, ?_⟩
  intro s' req h
  obtain ⟨-, hreq⟩ := send_accepted s t sk cp none s' req h
  rw [hreq]
  show truthyOr (imageToUse s none) = some img
  simp only [imageToUse, jsOrOpt, truthyOr, hst]
  simp [hne]

/-- C10 witness: with `"IMG"` staged, a text-only submit keeps the staged
image, reset clears it, and the outbound request carries `"IMG"`. -/
theorem staged_image_persists_witness :
    (handleSendMessage stagedImageState 40 SkillLevel.INTERMEDIATE
        (some "hello") none).1.selectedImage = some "IMG" ∧
    (resetChat stagedImageState).selectedImage = none ∧
    ({ prompt := "hello", history := [],
       skillLevel := SkillLevel.INTERMEDIATE,
       currentImage := some "IMG" } : InsightRequest).currentImage
      = some "IMG" := by
  have hmain := staged_image_persists stagedImageState 40 41
    SkillLevel.INTERMEDIATE (some "hello") (some "boom") "ok" "IMG" rfl
    (by decide)
  refine ⟨hmain.1, hmain.2.2.2.1, ?_⟩
  exact hmain.2.2.2.2
    (handleSendMessage stagedImageState 40 SkillLevel.INTERMEDIATE
      (some "hello") none).1
    { prompt := "hello", history := [],
      skillLevel := SkillLevel.INTERMEDIATE, currentImage := some "IMG" }
    (by decide)

end S2S
